import Mathlib

/-!
Verification development for the rs-uefi-varstore repository.

The engine (`src/varstore.rs`) is embedded shallowly: the Rust `String` name is
modelled as its byte sequence `List Nat` (Rust `String::len` is the byte count
and `==` is byte equality), `uefi::Guid` as a `Nat` (comparison of GUIDs is a
bijection onto their 16-byte representation, modelled by the little-endian
value of those bytes), and `EfiAttributes` (a `bitflags` `u32` set) as the raw
`Nat` bit word with the exact `contains`/`remove` semantics of the `bitflags`
crate.  `request_set` mutates `self`, so it is embedded as a function from the
store to the pair (new store, status result).

The EDK2 decoder (`src/edk2.rs`) is embedded as a cursor-passing parser over a
byte list.  Every `binrw` assertion failure and every `.unwrap()` of a fallible
conversion makes the Rust code abort; those aborts are modelled as `none`.
-/

namespace UefiVarstore

/-! ## Attribute bit words (`uefi::table::runtime::VariableAttributes`) -/

namespace EfiAttributes

def NON_VOLATILE : Nat := 0x01
def BOOTSERVICE_ACCESS : Nat := 0x02
def RUNTIME_ACCESS : Nat := 0x04
def HARDWARE_ERROR_RECORD : Nat := 0x08
def AUTHENTICATED_WRITE_ACCESS : Nat := 0x10
def TIME_BASED_AUTHENTICATED_WRITE_ACCESS : Nat := 0x20
def APPEND_WRITE : Nat := 0x40
def ENHANCED_AUTHENTICATED_ACCESS : Nat := 0x80

end EfiAttributes

/-- `bitflags` `contains`: `self.bits() & other.bits() == other.bits()`. -/
def contains (a f : Nat) : Bool := (a &&& f) == f

/-- `bitflags` `remove`: `self.bits() & !other.bits()` inside a `u32`. -/
def removeFlag (a f : Nat) : Nat := a &&& (0xFFFFFFFF ^^^ f)

/-! ## Engine data model (`src/varstore.rs`) -/

/-- The subset of `uefi::Status` values the engine produces. -/
inductive EfiStatus where
  | SUCCESS
  | INVALID_PARAMETER
  | NOT_FOUND
  | UNSUPPORTED
  | SECURITY_VIOLATION
  | BUFFER_TOO_SMALL
  | DEVICE_ERROR
deriving DecidableEq, Repr

structure EfiVariable where
  name : List Nat
  guid : Nat
  data : List Nat
  attr : Nat
deriving DecidableEq, Repr

structure Varstore where
  «variables» : List EfiVariable
  bootservices_exited : Bool
  max_data_length : Nat
  max_name_length : Nat
deriving DecidableEq, Repr

inductive NextResponse where
  | Found (v : EfiVariable)
  | EndReached
  | Invalid
deriving DecidableEq, Repr

def Varstore.new : Varstore :=
  { «variables» := []
    bootservices_exited := false
    max_name_length := 10000
    max_data_length := 50000 }

def Varstore.with_limits (max_name max_data : Nat) : Varstore :=
  { «variables» := []
    bootservices_exited := false
    max_data_length := max_data
    max_name_length := max_name }

/-- `Varstore::request_get_next` (varstore.rs:100-125). -/
def Varstore.request_get_next (s : Varstore) (name : List Nat) (guid : Nat) :
    NextResponse :=
  if name.isEmpty then
    match s.variables with
    | [] => .EndReached
    | first :: _ => .Found first
  else
    match s.variables.dropWhile (fun k => !(k.name == name && k.guid == guid)) with
    | [] => .Invalid
    | _ :: rest =>
      match rest with
      | [] => .EndReached
      | next :: _ => .Found next

/-- Private `Varstore::get` (varstore.rs:127-131). -/
def Varstore.get (s : Varstore) (name : List Nat) (guid : Nat) :
    Option EfiVariable :=
  s.variables.find? (fun x => x.name == name && x.guid == guid)

/-- `Varstore::request_get` (varstore.rs:133-152). -/
def Varstore.request_get (s : Varstore) (name : List Nat) (guid : Nat) :
    Except EfiStatus EfiVariable :=
  if name.isEmpty then
    .error .INVALID_PARAMETER
  else
    match s.get name guid with
    | some v =>
      if s.bootservices_exited && !(contains v.attr EfiAttributes.RUNTIME_ACCESS) then
        .error .NOT_FOUND
      else
        .ok v
    | none => .error .NOT_FOUND

/-- `Varstore::request_set` (varstore.rs:167-257).

The Rust function mutates `self.variables`; here the new store is returned
alongside the status.  `data` is the clone whose `attr` is stripped of
APPEND_WRITE in the append branch and which is the value actually stored at
`self.variables[index] = data`; `new_var.data` is the concatenation the code
computes but only consults for emptiness.  The `get_index(..).unwrap()` on
line 246 cannot fail because `get` just returned `Some`; `List.findIdx` (which
equals the found position in that case) models it. -/
def Varstore.request_set (s : Varstore) (var_in : EfiVariable) :
    Varstore × Except EfiStatus Unit :=
  if var_in.name.length > s.max_name_length then
    (s, .error .INVALID_PARAMETER)
  else if var_in.data.length > s.max_data_length then
    (s, .error .INVALID_PARAMETER)
  else if contains var_in.attr EfiAttributes.HARDWARE_ERROR_RECORD then
    (s, .error .INVALID_PARAMETER)
  else if contains var_in.attr EfiAttributes.AUTHENTICATED_WRITE_ACCESS then
    (s, .error .UNSUPPORTED)
  else if contains var_in.attr
      (EfiAttributes.TIME_BASED_AUTHENTICATED_WRITE_ACCESS |||
        EfiAttributes.ENHANCED_AUTHENTICATED_ACCESS) then
    (s, .error .SECURITY_VIOLATION)
  else if contains var_in.attr EfiAttributes.ENHANCED_AUTHENTICATED_ACCESS then
    (s, .error .UNSUPPORTED)
  else if contains var_in.attr EfiAttributes.TIME_BASED_AUTHENTICATED_WRITE_ACCESS then
    (s, .error .UNSUPPORTED)
  else if contains var_in.attr EfiAttributes.RUNTIME_ACCESS &&
      !(contains var_in.attr EfiAttributes.BOOTSERVICE_ACCESS) then
    (s, .error .INVALID_PARAMETER)
  else
    match s.get var_in.name var_in.guid with
    | some exist =>
      if exist.attr ≠ var_in.attr then
        (s, .error .INVALID_PARAMETER)
      else if s.bootservices_exited &&
          !(contains var_in.attr EfiAttributes.RUNTIME_ACCESS) then
        (s, .error .INVALID_PARAMETER)
      else
        let appending := contains var_in.attr EfiAttributes.APPEND_WRITE
        let data :=
          if appending then
            { var_in with attr := removeFlag var_in.attr EfiAttributes.APPEND_WRITE }
          else var_in
        let new_var_data := if appending then exist.data ++ var_in.data else var_in.data
        if appending && new_var_data.isEmpty then
          (s, .ok ())
        else
          let index :=
            s.variables.findIdx (fun x => x.name == data.name && x.guid == data.guid)
          if new_var_data.isEmpty then
            ({ s with «variables» := s.variables.eraseIdx index }, .ok ())
          else
            ({ s with «variables» := s.variables.set index data }, .ok ())
    | none => ({ s with «variables» := s.variables ++ [var_in] }, .ok ())

/-! ## Reachability and identity distinctness -/

/-- Stores reachable from a freshly created (empty) store by `request_set` calls. -/
inductive Reachable : Varstore → Prop where
  | created : Reachable Varstore.new
  | limited (mn md : Nat) : Reachable (Varstore.with_limits mn md)
  | step (s : Varstore) (v : EfiVariable) :
      Reachable s → Reachable (s.request_set v).1

/-- Stores reachable from a freshly created store by `request_set` calls in which
every call whose identity is new to the store has APPEND_WRITE clear. -/
inductive ReachableNoFreshAppend : Varstore → Prop where
  | created : ReachableNoFreshAppend Varstore.new
  | limited (mn md : Nat) : ReachableNoFreshAppend (Varstore.with_limits mn md)
  | step (s : Varstore) (v : EfiVariable) :
      ReachableNoFreshAppend s →
      (s.get v.name v.guid = none → contains v.attr EfiAttributes.APPEND_WRITE = false) →
      ReachableNoFreshAppend (s.request_set v).1

/-- No two records of the list share a (name, guid) identity. -/
def DistinctIds (l : List EfiVariable) : Prop :=
  l.Pairwise (fun a b => ¬(a.name = b.name ∧ a.guid = b.guid))

/-! ## Bit-word helper lemmas -/

theorem contains_iff_testBit (a f : Nat) :
    contains a f = true ↔ ∀ i, f.testBit i = true → a.testBit i = true := by
  have h : contains a f = true ↔ a &&& f = f := by
    simp [contains]
  rw [h]
  constructor
  · intro he i hfi
    have := congrArg (fun x => Nat.testBit x i) he
    simp only [Nat.testBit_land] at this
    rw [hfi] at this
    simpa using this
  · intro hb
    apply Nat.eq_of_testBit_eq
    intro i
    rw [Nat.testBit_land]
    cases hfi : f.testBit i with
    | true => simp [hb i hfi]
    | false => simp

theorem contains_lor_intro (a f g : Nat)
    (hf : contains a f = true) (hg : contains a g = true) :
    contains a (f ||| g) = true := by
  rw [contains_iff_testBit] at hf hg ⊢
  intro i hi
  rw [Nat.testBit_lor] at hi
  cases hfi : f.testBit i with
  | true => exact hf i hfi
  | false =>
    rw [hfi] at hi
    simp only [Bool.false_or] at hi
    exact hg i hi

theorem contains_lor_false_left (a f g : Nat)
    (hf : contains a f = false) :
    contains a (f ||| g) = false := by
  cases hc : contains a (f ||| g) with
  | false => rfl
  | true =>
    exfalso
    rw [contains_iff_testBit] at hc
    have : contains a f = true := by
      rw [contains_iff_testBit]
      intro i hfi
      exact hc i (by rw [Nat.testBit_lor, hfi, Bool.true_or])
    rw [hf] at this
    exact Bool.false_ne_true this

theorem contains_removeFlag_append (a : Nat) :
    contains (removeFlag a EfiAttributes.APPEND_WRITE) EfiAttributes.APPEND_WRITE
      = false := by
  cases hc :
      contains (removeFlag a EfiAttributes.APPEND_WRITE) EfiAttributes.APPEND_WRITE with
  | false => rfl
  | true =>
    exfalso
    rw [contains_iff_testBit] at hc
    have h6 : (removeFlag a EfiAttributes.APPEND_WRITE).testBit 6 = true :=
      hc 6 (by decide)
    have hconst :
        ((0xFFFFFFFF : Nat).testBit 6 ^^ (EfiAttributes.APPEND_WRITE).testBit 6)
          = false := by decide
    rw [removeFlag, Nat.testBit_land, Nat.testBit_xor, hconst, Bool.and_false] at h6
    exact Bool.false_ne_true h6

/-! ## EDK2 decoder (`src/edk2.rs`)

`binrw` reads fields sequentially at a cursor, little-endian.  An assertion
failure or an out-of-bounds read yields `binrw::Error`, which `from_bytes`
`.unwrap()`s — i.e. the process aborts; both are modelled as `none`.  A GUID is
kept as its raw 16 bytes; the `FSGuid.to_string() == "…"` asserts compare the
GUID's display form with a fixed string, which holds exactly when the raw bytes
equal the string's standard mixed-endian encoding, given below as byte lists. -/

/-- Raw bytes of `fff12b8d-7696-4c8b-a985-2747075b4f50`. -/
def fsguidBytes : List Nat :=
  [0x8d, 0x2b, 0xf1, 0xff, 0x96, 0x76, 0x8b, 0x4c,
   0xa9, 0x85, 0x27, 0x47, 0x07, 0x5b, 0x4f, 0x50]

/-- Raw bytes of `aaf32c78-947b-439a-a180-2e144ec37792`. -/
def vsguidBytes : List Nat :=
  [0x78, 0x2c, 0xf3, 0xaa, 0x7b, 0x94, 0x9a, 0x43,
   0xa1, 0x80, 0x2e, 0x14, 0x4e, 0xc3, 0x77, 0x92]

/-- Union of all `EDK2FirmwareVolume2Attributes` flag bits; `from_bits` succeeds
exactly when the word has no bit outside this mask. -/
def FVB2_KNOWN_BITS : Nat := 0x801FFEFF

def readBytesAt (bs : List Nat) (pos n : Nat) : Option (List Nat × Nat) :=
  if pos + n ≤ bs.length then some ((bs.drop pos).take n, pos + n) else none

/-- Little-endian value of a byte list. -/
def leVal : List Nat → Nat
  | [] => 0
  | b :: rest => b + 256 * leVal rest

def readUle (bs : List Nat) (pos n : Nat) : Option (Nat × Nat) :=
  match readBytesAt bs pos n with
  | some (l, p) => some (leVal l, p)
  | none => none

/-- `align_before = 4`: advance the cursor to the next 4-byte boundary. -/
def align4 (pos : Nat) : Nat := pos + (4 - pos % 4) % 4

/-- Read `n` little-endian `u16` values. -/
def readU16s (bs : List Nat) : Nat → Nat → Option (List Nat × Nat)
  | pos, 0 => some ([], pos)
  | pos, n + 1 =>
    match readUle bs pos 2 with
    | none => none
    | some (u, p) =>
      match readU16s bs p n with
      | none => none
      | some (us, p') => some (u :: us, p')

/-- `uefi::CString16::try_from(Vec<u16>)` (external crate, modelled from its
documented behavior): requires a trailing NUL, no interior NUL, and every unit a
valid UCS-2 character (no surrogate). -/
def cstring16Ok (units : List Nat) : Bool :=
  !units.isEmpty && units.getLast? == some 0 &&
    units.dropLast.all (fun u => u != 0) &&
    units.all (fun u => !(0xD800 ≤ u && u ≤ 0xDFFF))

/-- UTF-8 bytes of a list of UCS-2 code units (`CString16::to_string`). -/
def ucs2ToUtf8 : List Nat → List Nat
  | [] => []
  | u :: rest =>
    (if u < 0x80 then [u]
     else if u < 0x800 then [0xC0 + u / 64, 0x80 + u % 64]
     else [0xE0 + u / 4096, 0x80 + (u / 64) % 64, 0x80 + u % 64]) ++ ucs2ToUtf8 rest

structure EDK2VariableHeader where
  ZeroVector : List Nat
  FSGuid : List Nat
  Length : Nat
  Signatur : List Nat
  Attributes : Nat
  HeaderLength : Nat
  HeaderCheckSum : Nat
  Revision : Nat
  VSGuid : List Nat
  VariableSize : Nat
  Status : List Nat
deriving DecidableEq, Repr

structure EDK2Variable where
  Signature : Nat
  Status : Nat
  Attributes : Nat
  Monotoniccount : Nat
  Timestamp : List Nat
  PubkeyIdx : Nat
  Namelen : Nat
  Datalen : Nat
  Guid : List Nat
  Name : List Nat
  Data : List Nat
deriving DecidableEq, Repr

structure EDK2VariableStore where
  Header : EDK2VariableHeader
  Variables : List EDK2Variable
deriving DecidableEq, Repr

/-- `EDK2VariableHeader` field-by-field `BinRead` (edk2.rs:82-116). -/
def parseHeader (bs : List Nat) : Option (EDK2VariableHeader × Nat) :=
  match readBytesAt bs 0 16 with
  | none => none
  | some (zv, p) =>
    if !(zv.all (fun x => x == 0)) then none else
    match readBytesAt bs p 16 with
    | none => none
    | some (fsg, p) =>
      if fsg ≠ fsguidBytes then none else
      match readUle bs p 8 with
      | none => none
      | some (len, p) =>
        match readBytesAt bs p 4 with
        | none => none
        | some (sig, p) =>
          if sig ≠ [0x5f, 0x46, 0x56, 0x48] then none else
          match readUle bs p 4 with
          | none => none
          | some (attrs, p) =>
            if attrs &&& FVB2_KNOWN_BITS ≠ attrs then none else
            match readUle bs p 2 with
            | none => none
            | some (hlen, p) =>
              if hlen ≠ 0x48 then none else
              match readUle bs p 2 with
              | none => none
              | some (cksum, p) =>
                match readUle bs (p + 3) 1 with
                | none => none
                | some (rev, p) =>
                  if rev ≠ 2 then none else
                  match readBytesAt bs (p + 0x10) 16 with
                  | none => none
                  | some (vsg, p) =>
                    if vsg ≠ vsguidBytes then none else
                    match readUle bs p 4 with
                    | none => none
                    | some (vsize, p) =>
                      match readBytesAt bs p 8 with
                      | none => none
                      | some (st, p) =>
                        some (⟨zv, fsg, len, sig, attrs, hlen, cksum, rev, vsg,
                               vsize, st⟩, p)

/-- `EDK2Variable` field-by-field `BinRead` (edk2.rs:118-141).  The state byte's
`EDK2VaribleState::from_bits` never fails (its flag bits cover every `u8`);
the attribute word's `EfiAttributes::from_bits(..).unwrap()` fails on any bit
outside `0xFF`. -/
def parseVariable (bs : List Nat) (pos : Nat) : Option (EDK2Variable × Nat) :=
  match readUle bs (align4 pos) 2 with
  | none => none
  | some (sig, p) =>
    if sig ≠ 0x55aa then none else
    match readUle bs p 1 with
    | none => none
    | some (st, p) =>
      match readUle bs (p + 1) 4 with
      | none => none
      | some (attrs, p) =>
        if attrs &&& 0xFF ≠ attrs then none else
        match readUle bs p 8 with
        | none => none
        | some (mono, p) =>
          match readBytesAt bs p 16 with
          | none => none
          | some (ts, p) =>
            match readUle bs p 4 with
            | none => none
            | some (pki, p) =>
              match readUle bs p 4 with
              | none => none
              | some (nlen, p) =>
                match readUle bs p 4 with
                | none => none
                | some (dlen, p) =>
                  match readBytesAt bs p 16 with
                  | none => none
                  | some (guidBytes, p) =>
                    match readU16s bs p (nlen / 2) with
                    | none => none
                    | some (units, p) =>
                      if !(cstring16Ok units) then none else
                      match readBytesAt bs p dlen with
                      | none => none
                      | some (dat, p) =>
                        some (⟨sig, st, attrs, mono, ts, pki, nlen, dlen,
                               guidBytes, units, dat⟩, p)

/-- The `count = Header.VariableSize / 725` sequence read (edk2.rs:143-151):
exactly `n` records, one after another. -/
def parseVariables (bs : List Nat) : Nat → Nat → Option (List EDK2Variable × Nat)
  | pos, 0 => some ([], pos)
  | pos, n + 1 =>
    match parseVariable bs pos with
    | none => none
    | some (v, p) =>
      match parseVariables bs p n with
      | none => none
      | some (vs, p') => some (v :: vs, p')

/-- The `for var in store.Variables` loop of `from_bytes` (edk2.rs:161-167):
keep records whose state equals `VAR_ADDED` (0x3f) and convert them. -/
def collectActive : List EDK2Variable → List EfiVariable
  | [] => []
  | v :: rest =>
    if v.Status ≠ 0x3f then collectActive rest
    else ⟨ucs2ToUtf8 v.Name.dropLast, leVal v.Guid, v.Data, v.Attributes⟩
      :: collectActive rest

/-- `EDK2VariableStore::from_bytes` (edk2.rs:154-169).  The Rust function's
`Result<_, ()>` never carries `Err`: every parse failure goes through
`.unwrap()` and aborts, modelled by `none`. -/
def EDK2VariableStore.from_bytes (bs : List Nat) :
    Option (List EfiVariable × EDK2VariableStore) :=
  match parseHeader bs with
  | none => none
  | some (hdr, pos) =>
    match parseVariables bs pos (hdr.VariableSize / 725) with
    | none => none
    | some (vars, _) => some (collectActive vars, ⟨hdr, vars⟩)

/-- Modelled from the spec (§4.2 step 2): the missing correct record loop —
"Records are variable-length; a correct decoder parses sequentially, tracking
the read cursor, until the declared byte extent of the variable area is
exhausted".  Per-record parsing is the code's own `parseVariable`; only the
record-count logic follows the spec's words.  Fuel decreases each step; a call
with fuel `bs.length + 1` can never run out before the extent is consumed. -/
def parseSeqAux (bs : List Nat) (limit : Nat) : Nat → Nat → Option (List EDK2Variable)
  | _, 0 => none
  | pos, fuel + 1 =>
    if limit ≤ align4 pos then some []
    else
      match parseVariable bs pos with
      | none => none
      | some (v, p) =>
        match parseSeqAux bs limit p fuel with
        | none => none
        | some vs => some (v :: vs)

/-- Modelled from the spec: sequential decode of the whole image — the code's
header parse followed by sequential record parsing over the declared
`VariableSize` byte extent of the variable area. -/
def decodeSeq (bs : List Nat) : Option (List EDK2Variable) :=
  match parseHeader bs with
  | none => none
  | some (hdr, pos) => parseSeqAux bs (pos + hdr.VariableSize) pos (bs.length + 1)

/-! ## Concrete inputs used by the theorems below -/

/-- A well-formed 65-byte record: state `VAR_ADDED`, name "A" (2 UCS-2 units
with the NUL), 1 data byte. -/
def recABytes : List Nat :=
  [0xaa, 0x55] ++ [0x3f] ++ [0] ++ [2, 0, 0, 0] ++ List.replicate 8 0 ++
    List.replicate 16 0 ++ [0, 0, 0, 0] ++ [4, 0, 0, 0] ++ [1, 0, 0, 0] ++
    List.replicate 16 0 ++ [0x41, 0, 0, 0] ++ [0xAB]

/-- A well-formed 68-byte record of different name/data lengths: name "BB",
2 data bytes. -/
def recBBytes : List Nat :=
  [0xaa, 0x55] ++ [0x3f] ++ [0] ++ [2, 0, 0, 0] ++ List.replicate 8 0 ++
    List.replicate 16 0 ++ [0, 0, 0, 0] ++ [6, 0, 0, 0] ++ [2, 0, 0, 0] ++
    List.replicate 16 0 ++ [0x42, 0, 0x42, 0, 0, 0] ++ [0xCD, 0xEF]

/-- A well-formed 236-byte image: valid header (the `binrw` struct consumes 100
bytes), declared variable-area extent 136 bytes (offsets 100-236) holding the
two fully-added records above (the second 4-byte aligned). -/
def img236 : List Nat :=
  List.replicate 16 0 ++ fsguidBytes ++ [236, 0, 0, 0, 0, 0, 0, 0] ++
    [0x5f, 0x46, 0x56, 0x48] ++ [0, 0, 0, 0] ++ [0x48, 0] ++ [0, 0] ++
    [0, 0, 0] ++ [2] ++ List.replicate 16 0 ++ vsguidBytes ++ [136, 0, 0, 0] ++
    List.replicate 8 0 ++ recABytes ++ [0, 0, 0] ++ recBBytes

/-- A store holding one record whose attributes carry APPEND_WRITE
(`0x42 = BOOTSERVICE_ACCESS ||| APPEND_WRITE`), so that an APPEND_WRITE `set`
on it passes the attribute-equality check (validation step 9). -/
def appendStore : Varstore :=
  { «variables» := [⟨[65], 7, [1], 0x42⟩]
    bootservices_exited := false
    max_data_length := 50000
    max_name_length := 10000 }

/-- A store (after exit-boot-services) holding one record with an empty name
and only BOOTSERVICE_ACCESS. -/
def emptyNameStore : Varstore :=
  { «variables» := [⟨[], 3, [1], 2⟩]
    bootservices_exited := true
    max_data_length := 50000
    max_name_length := 10000 }

/-- A store (after exit-boot-services) holding one boot-services-only record
with a non-empty name. -/
def exitedStore : Varstore :=
  { «variables» := [⟨[65], 7, [1], 2⟩]
    bootservices_exited := true
    max_data_length := 50000
    max_name_length := 10000 }

/-! ## Claim theorems -/

/-- C1: the claim says an APPEND_WRITE `set` on an existing identity that passes
validation steps 1-9 stores the concatenation of the existing data and the
incoming data.  The code computes the concatenation into `new_var` but writes
`data` (the incoming record with the flag stripped) into the store: appending
`[2]` to existing data `[1]` stores `[2]`, not `[1, 2]`, and appending `[]` to
`[1]` wipes the data to `[]` instead of leaving it unchanged. -/
theorem c1_append_stores_incoming_only :
    (appendStore.request_set ⟨[65], 7, [2], 0x42⟩).1.variables
        = [⟨[65], 7, [2], 0x02⟩] ∧
      (appendStore.request_set ⟨[65], 7, [2], 0x42⟩).2 = .ok () ∧
      (appendStore.request_set ⟨[65], 7, [], 0x42⟩).1.variables
        = [⟨[65], 7, [], 0x02⟩] :=
  ⟨rfl, rfl, rfl⟩

set_option maxRecDepth 100000 in
/-- C2: the claim says the decoder parses sequentially until the declared byte
extent is exhausted and recovers all records of a well-formed image.  The code
instead reads `VariableSize / 725` records: on `img236` (declared extent 136
bytes, two fully-added records of differing name/data lengths) it reads
`136 / 725 = 0` records and returns none of them, while the spec's sequential
parse over the same extent recovers both. -/
theorem c2_fixed_divisor_drops_records :
    (EDK2VariableStore.from_bytes img236).map
        (fun p => (p.1.length, p.2.Variables.length)) = some (0, 0) ∧
      (decodeSeq img236).map List.length = some 2 :=
  ⟨rfl, rfl⟩

/-- C3: the claim says a malformed buffer never causes an unrecoverable fault.
The code `.unwrap()`s the `binrw` result, so a buffer whose filesystem GUID is
wrong (here: 100 zero bytes, whose zero vector is fine but whose GUID field is
all zeroes) makes `from_bytes` panic — modelled as `none`. -/
theorem c3_decode_panics_on_bad_fs_guid :
    EDK2VariableStore.from_bytes (List.replicate 100 0) = none :=
  rfl

/-- C5 counterexample: `get` with an empty name on the freshly created store
does not return NotFound (it returns InvalidParameter, see the amended
theorem). -/
theorem c5_counterexample :
    Varstore.new.request_get [] 0 ≠ .error .NOT_FOUND := by
  intro h
  have h' : (Except.error .INVALID_PARAMETER : Except EfiStatus EfiVariable)
      = .error .NOT_FOUND := h
  injection h' with h2
  exact absurd h2 (by decide)

/-- C5 amended: for every store and namespace GUID, `get` with an empty name
returns InvalidParameter (varstore.rs:134-136), not NotFound. -/
theorem c5_empty_name_invalid_parameter (s : Varstore) (guid : Nat) :
    s.request_get [] guid = .error .INVALID_PARAMETER :=
  rfl

/-- Exhaustive case analysis of `request_set`: either some validation step
failed (an error is returned with the store unchanged), or the call succeeded
and the record list is unchanged (append no-op), extended by the input record
(fresh identity), shrunk by `eraseIdx` at the identity's index (delete), or
updated by `set` at that index with the input record or its
APPEND_WRITE-stripped copy. -/
theorem request_set_shape (s : Varstore) (v : EfiVariable) :
    (∃ e, s.request_set v = (s, .error e)) ∨
      ((s.request_set v).2 = .ok () ∧
        ((s.request_set v).1 = s ∨
          (s.get v.name v.guid = none ∧
            (s.request_set v).1.variables = s.variables ++ [v]) ∨
          (∃ exist, s.get v.name v.guid = some exist ∧ exist.attr = v.attr ∧
            ((s.request_set v).1.variables =
                s.variables.eraseIdx
                  (s.variables.findIdx
                    (fun x => x.name == v.name && x.guid == v.guid)) ∨
              ∃ w, ((contains v.attr EfiAttributes.APPEND_WRITE = false ∧ w = v) ∨
                      w = { v with
                              attr := removeFlag v.attr EfiAttributes.APPEND_WRITE }) ∧
                w.name = v.name ∧ w.guid = v.guid ∧
                (s.request_set v).1.variables =
                  s.variables.set
                    (s.variables.findIdx
                      (fun x => x.name == v.name && x.guid == v.guid)) w)))) := by
  rcases hr : s.request_set v with ⟨s', r⟩
  unfold Varstore.request_set at hr
  by_cases h1 : v.name.length > s.max_name_length
  · rw [if_pos h1] at hr
    injection hr with ha hb; subst ha; subst hb
    exact Or.inl ⟨_, rfl⟩
  rw [if_neg h1] at hr
  by_cases h2 : v.data.length > s.max_data_length
  · rw [if_pos h2] at hr
    injection hr with ha hb; subst ha; subst hb
    exact Or.inl ⟨_, rfl⟩
  rw [if_neg h2] at hr
  by_cases h3 : contains v.attr EfiAttributes.HARDWARE_ERROR_RECORD = true
  · rw [if_pos h3] at hr
    injection hr with ha hb; subst ha; subst hb
    exact Or.inl ⟨_, rfl⟩
  rw [if_neg h3] at hr
  by_cases h4 : contains v.attr EfiAttributes.AUTHENTICATED_WRITE_ACCESS = true
  · rw [if_pos h4] at hr
    injection hr with ha hb; subst ha; subst hb
    exact Or.inl ⟨_, rfl⟩
  rw [if_neg h4] at hr
  by_cases h5 : contains v.attr
      (EfiAttributes.TIME_BASED_AUTHENTICATED_WRITE_ACCESS |||
        EfiAttributes.ENHANCED_AUTHENTICATED_ACCESS) = true
  · rw [if_pos h5] at hr
    injection hr with ha hb; subst ha; subst hb
    exact Or.inl ⟨_, rfl⟩
  rw [if_neg h5] at hr
  by_cases h6 : contains v.attr EfiAttributes.ENHANCED_AUTHENTICATED_ACCESS = true
  · rw [if_pos h6] at hr
    injection hr with ha hb; subst ha; subst hb
    exact Or.inl ⟨_, rfl⟩
  rw [if_neg h6] at hr
  by_cases h7 : contains v.attr
      EfiAttributes.TIME_BASED_AUTHENTICATED_WRITE_ACCESS = true
  · rw [if_pos h7] at hr
    injection hr with ha hb; subst ha; subst hb
    exact Or.inl ⟨_, rfl⟩
  rw [if_neg h7] at hr
  by_cases h8 : (contains v.attr EfiAttributes.RUNTIME_ACCESS &&
      !contains v.attr EfiAttributes.BOOTSERVICE_ACCESS) = true
  · rw [if_pos h8] at hr
    injection hr with ha hb; subst ha; subst hb
    exact Or.inl ⟨_, rfl⟩
  rw [if_neg h8] at hr
  cases hget : s.get v.name v.guid with
  | none =>
    rw [hget] at hr
    injection hr with ha hb; subst ha; subst hb
    exact Or.inr ⟨rfl, Or.inr (Or.inl ⟨rfl, rfl⟩)⟩
  | some exist =>
    rw [hget] at hr
    dsimp only [] at hr
    by_cases h9 : exist.attr = v.attr
    · rw [if_neg (not_not_intro h9)] at hr
      by_cases h10 : (s.bootservices_exited &&
          !contains v.attr EfiAttributes.RUNTIME_ACCESS) = true
      · rw [if_pos h10] at hr
        injection hr with ha hb; subst ha; subst hb
        exact Or.inl ⟨_, rfl⟩
      rw [if_neg h10] at hr
      by_cases hap : contains v.attr EfiAttributes.APPEND_WRITE = true
      · rw [if_pos hap, if_pos hap] at hr
        rw [hap, Bool.true_and] at hr
        by_cases hemp : (exist.data ++ v.data).isEmpty = true
        · rw [if_pos hemp] at hr
          injection hr with ha hb; subst ha; subst hb
          exact Or.inr ⟨rfl, Or.inl rfl⟩
        · rw [if_neg hemp, if_neg hemp] at hr
          injection hr with ha hb; subst ha; subst hb
          exact Or.inr ⟨rfl, Or.inr (Or.inr ⟨exist, rfl, h9,
            Or.inr ⟨{ v with attr := removeFlag v.attr EfiAttributes.APPEND_WRITE },
              Or.inr rfl, rfl, rfl, rfl⟩⟩)⟩
      · rw [if_neg hap, if_neg hap] at hr
        rw [Bool.not_eq_true] at hap
        rw [hap, Bool.false_and] at hr
        rw [if_neg Bool.false_ne_true] at hr
        by_cases hemp : v.data.isEmpty = true
        · rw [if_pos hemp] at hr
          injection hr with ha hb; subst ha; subst hb
          exact Or.inr ⟨rfl, Or.inr (Or.inr ⟨exist, rfl, h9, Or.inl rfl⟩)⟩
        · rw [if_neg hemp] at hr
          injection hr with ha hb; subst ha; subst hb
          exact Or.inr ⟨rfl, Or.inr (Or.inr ⟨exist, rfl, h9,
            Or.inr ⟨v, Or.inl ⟨hap, rfl⟩, rfl, rfl, rfl⟩⟩)⟩
    · rw [if_pos h9] at hr
      injection hr with ha hb; subst ha; subst hb
      exact Or.inl ⟨_, rfl⟩

/-- C4: every `request_set` call either succeeds or returns an error with the
store unmodified — every failing validation step short-circuits before any
mutation, so there is never a partially applied write. -/
theorem c4_request_set_atomic (s : Varstore) (v : EfiVariable) :
    (s.request_set v).2 = .ok () ∨
      ((s.request_set v).1 = s ∧ ∃ e, (s.request_set v).2 = .error e) := by
  rcases request_set_shape s v with ⟨e, he⟩ | ⟨hok, _⟩
  · rw [he]
    exact Or.inr ⟨rfl, e, rfl⟩
  · exact Or.inl hok

/-- Replacing the first identity-match of `w` by `w` itself keeps identities
pairwise distinct. -/
theorem distinctIds_set (l : List EfiVariable) (w : EfiVariable)
    (h : DistinctIds l) :
    DistinctIds
      (l.set (l.findIdx (fun x => x.name == w.name && x.guid == w.guid)) w) := by
  induction l with
  | nil => exact h
  | cons a t ih =>
    rcases List.pairwise_cons.1 h with ⟨ha, ht⟩
    rw [List.findIdx_cons]
    by_cases hp : (a.name == w.name && a.guid == w.guid) = true
    · rw [hp, cond_true, List.set_cons_zero]
      have hpe : a.name = w.name ∧ a.guid = w.guid := by simpa using hp
      refine List.pairwise_cons.2 ⟨?_, ht⟩
      intro x hx hcontra
      exact ha x hx ⟨hpe.1.trans hcontra.1, hpe.2.trans hcontra.2⟩
    · rw [Bool.not_eq_true] at hp
      rw [hp, cond_false, List.set_cons_succ]
      refine List.pairwise_cons.2 ⟨?_, ih ht⟩
      intro x hx
      rcases List.mem_or_eq_of_mem_set hx with hx' | rfl
      · exact ha x hx'
      · intro hcontra
        simp [hcontra.1, hcontra.2] at hp

/-- Appending a record whose identity is absent keeps identities pairwise
distinct. -/
theorem distinctIds_append (l : List EfiVariable) (v : EfiVariable)
    (h : DistinctIds l)
    (hnone : l.find? (fun x => x.name == v.name && x.guid == v.guid) = none) :
    DistinctIds (l ++ [v]) := by
  rw [DistinctIds, List.pairwise_append]
  refine ⟨h, List.pairwise_singleton _ _, ?_⟩
  intro a ha b hb
  rw [List.mem_singleton] at hb
  subst hb
  have hfa := List.find?_eq_none.1 hnone a ha
  intro hcontra
  exact hfa (by simp [hcontra.1, hcontra.2])

/-- C9: identity uniqueness is an invariant — for every store reachable from an
empty store by any sequence of `request_set` calls, no two stored records share
the same (name, guid) identity. -/
theorem c9_identity_uniqueness (s : Varstore) (h : Reachable s) :
    DistinctIds s.variables := by
  induction h with
  | created => exact List.Pairwise.nil
  | limited mn md => exact List.Pairwise.nil
  | step s v hs ih =>
    rcases request_set_shape s v with ⟨e, he⟩ | ⟨_, hcase⟩
    · rw [he]; exact ih
    · rcases hcase with hsame | ⟨hnone, hvars⟩ |
        ⟨exist, hget, hattr, herase | ⟨w, hw, hwn, hwg, hvars⟩⟩
      · rw [hsame]; exact ih
      · rw [hvars]; exact distinctIds_append _ _ ih hnone
      · rw [herase]; exact List.Pairwise.sublist (List.eraseIdx_sublist _ _) ih
      · rw [hvars]
        have hset := distinctIds_set s.variables w ih
        rw [hwn, hwg] at hset
        exact hset

/-- Witness for `c9_identity_uniqueness` at a concrete reachable store. -/
theorem c9_identity_uniqueness_witness :
    DistinctIds
      ((Varstore.new.request_set ⟨[65], 7, [1], 2⟩).1.request_set
        ⟨[66], 7, [2], 2⟩).1.variables :=
  c9_identity_uniqueness _ (Reachable.step _ _ (Reachable.step _ _ Reachable.created))

/-- C6 counterexample: the claim also covers `request_set` calls whose identity
is new to the store, but a fresh-identity `set` carrying APPEND_WRITE
(`0x42 = BOOTSERVICE_ACCESS ||| APPEND_WRITE`) pushes the record with the flag
still set, so the reachable store persists APPEND_WRITE. -/
theorem c6_counterexample :
    Reachable (Varstore.new.request_set ⟨[66], 5, [1], 0x42⟩).1 ∧
      (Varstore.new.request_set ⟨[66], 5, [1], 0x42⟩).1.variables
        = [⟨[66], 5, [1], 0x42⟩] ∧
      contains 0x42 EfiAttributes.APPEND_WRITE = true :=
  ⟨Reachable.step _ _ Reachable.created, rfl, by decide⟩

/-- C6 amended: APPEND_WRITE is stripped before a record is stored whenever the
record's identity already exists, so for every store reachable from an empty
store by `request_set` calls in which every call whose identity is new to the
store has APPEND_WRITE clear, no stored record's attributes contain
APPEND_WRITE.  (A fresh-identity `set` with APPEND_WRITE persists the flag
verbatim — see the counterexample.) -/
theorem c6_amended_append_never_persisted (s : Varstore)
    (h : ReachableNoFreshAppend s) :
    ∀ x ∈ s.variables, contains x.attr EfiAttributes.APPEND_WRITE = false := by
  induction h with
  | created =>
    intro x hx
    exact absurd hx (List.not_mem_nil x)
  | limited mn md =>
    intro x hx
    exact absurd hx (List.not_mem_nil x)
  | step s v hs hfresh ih =>
    intro x hx
    rcases request_set_shape s v with ⟨e, he⟩ | ⟨_, hcase⟩
    · rw [he] at hx; exact ih x hx
    · rcases hcase with hsame | ⟨hnone, hvars⟩ |
        ⟨exist, hget, hattr, herase | ⟨w, hw, hwn, hwg, hvars⟩⟩
      · rw [hsame] at hx; exact ih x hx
      · rw [hvars] at hx
        rcases List.mem_append.1 hx with hx' | hx'
        · exact ih x hx'
        · rw [List.mem_singleton] at hx'
          subst hx'
          exact hfresh hnone
      · rw [herase] at hx
        exact ih x ((List.eraseIdx_sublist _ _).mem hx)
      · rw [hvars] at hx
        rcases List.mem_or_eq_of_mem_set hx with hx' | rfl
        · exact ih x hx'
        · rcases hw with ⟨hapf, rfl⟩ | rfl
          · exact hapf
          · exact contains_removeFlag_append _

/-- Witness for `c6_amended_append_never_persisted`: a record stored through a
fresh-identity `set` without APPEND_WRITE indeed lacks the flag. -/
theorem c6_amended_append_never_persisted_witness :
    contains (⟨[66], 5, [1], 2⟩ : EfiVariable).attr EfiAttributes.APPEND_WRITE
      = false :=
  c6_amended_append_never_persisted (Varstore.new.request_set ⟨[66], 5, [1], 2⟩).1
    (ReachableNoFreshAppend.step _ _ ReachableNoFreshAppend.created
      (fun _ => by decide))
    ⟨[66], 5, [1], 2⟩ (by decide)

/-- C7 counterexample: a record carrying TIME_BASED_AUTHENTICATED_WRITE_ACCESS,
ENHANCED_AUTHENTICATED_ACCESS and additionally HARDWARE_ERROR_RECORD
(`0xA8`) is rejected with InvalidParameter by the earlier validation step, not
with SecurityViolation — so the combination does not yield SecurityViolation
"regardless of the record's other fields". -/
theorem c7_counterexample :
    Varstore.new.request_set ⟨[], 0, [], 0xA8⟩
        = (Varstore.new, .error .INVALID_PARAMETER) ∧
      EfiStatus.INVALID_PARAMETER ≠ EfiStatus.SECURITY_VIOLATION :=
  ⟨rfl, by decide⟩

/-- C7 amended: a record with both TIME_BASED_AUTHENTICATED_WRITE_ACCESS and
ENHANCED_AUTHENTICATED_ACCESS set yields SecurityViolation (with the store
unchanged) regardless of its remaining fields, provided the earlier validation
steps pass: name and data within the configured limits and neither
HARDWARE_ERROR_RECORD nor AUTHENTICATED_WRITE_ACCESS set. -/
theorem c7_both_auth_flags_security_violation (s : Varstore) (v : EfiVariable)
    (h1 : v.name.length ≤ s.max_name_length)
    (h2 : v.data.length ≤ s.max_data_length)
    (h3 : contains v.attr EfiAttributes.HARDWARE_ERROR_RECORD = false)
    (h4 : contains v.attr EfiAttributes.AUTHENTICATED_WRITE_ACCESS = false)
    (h5 : contains v.attr EfiAttributes.TIME_BASED_AUTHENTICATED_WRITE_ACCESS = true)
    (h6 : contains v.attr EfiAttributes.ENHANCED_AUTHENTICATED_ACCESS = true) :
    s.request_set v = (s, .error .SECURITY_VIOLATION) := by
  have hcombo := contains_lor_intro _ _ _ h5 h6
  have hn1 : ¬(v.name.length > s.max_name_length) := by omega
  have hn2 : ¬(v.data.length > s.max_data_length) := by omega
  unfold Varstore.request_set
  rw [if_neg hn1, if_neg hn2, if_neg (by simp [h3]), if_neg (by simp [h4]),
    if_pos hcombo]

/-- Witness for `c7_both_auth_flags_security_violation` at a concrete input. -/
theorem c7_both_auth_flags_security_violation_witness :
    Varstore.new.request_set ⟨[65], 3, [9], 0xA0⟩
        = (Varstore.new, .error .SECURITY_VIOLATION) :=
  c7_both_auth_flags_security_violation Varstore.new ⟨[65], 3, [9], 0xA0⟩
    (by decide) (by decide) (by decide) (by decide) (by decide) (by decide)

/-- C8 counterexample: the claim says `get` on a stored record lacking
RUNTIME_ACCESS returns NotFound after boot services exit; for a stored record
whose name is empty the lookup path is never reached and `get` returns
InvalidParameter instead. -/
theorem c8_counterexample :
    (⟨[], 3, [1], 2⟩ : EfiVariable) ∈ emptyNameStore.variables ∧
      contains (2 : Nat) EfiAttributes.RUNTIME_ACCESS = false ∧
      emptyNameStore.bootservices_exited = true ∧
      emptyNameStore.request_get [] 3 = .error .INVALID_PARAMETER ∧
      EfiStatus.INVALID_PARAMETER ≠ EfiStatus.NOT_FOUND :=
  ⟨List.mem_singleton.2 rfl, by decide, rfl, rfl, by decide⟩

/-- C8 amended: after `bootservices_exited` is true, for a stored record with a
non-empty name whose attributes carry none of the authentication flags and no
HARDWARE_ERROR_RECORD (as holds for every record `request_set` admits): if it
lacks RUNTIME_ACCESS, `get` returns NotFound although the record remains
stored, and `request_set` with its identity and attributes — any data,
including the empty-data delete attempt — returns InvalidParameter with the
store unmodified; a record with RUNTIME_ACCESS (and BOOTSERVICE_ACCESS, name
within the length limit) remains fully readable and writable for data within
the data-length limit. -/
theorem c8_runtime_gating (s : Varstore) (name : List Nat) (guid : Nat)
    (v : EfiVariable)
    (hex : s.bootservices_exited = true)
    (hget : s.get name guid = some v)
    (hname : name ≠ [])
    (hHw : contains v.attr EfiAttributes.HARDWARE_ERROR_RECORD = false)
    (hAuth : contains v.attr EfiAttributes.AUTHENTICATED_WRITE_ACCESS = false)
    (hEnh : contains v.attr EfiAttributes.ENHANCED_AUTHENTICATED_ACCESS = false)
    (hTime : contains v.attr
      EfiAttributes.TIME_BASED_AUTHENTICATED_WRITE_ACCESS = false) :
    (contains v.attr EfiAttributes.RUNTIME_ACCESS = false →
      (s.request_get name guid = .error .NOT_FOUND ∧ v ∈ s.variables) ∧
      ∀ d, s.request_set ⟨name, guid, d, v.attr⟩ = (s, .error .INVALID_PARAMETER)) ∧
    (contains v.attr EfiAttributes.RUNTIME_ACCESS = true →
      contains v.attr EfiAttributes.BOOTSERVICE_ACCESS = true →
      name.length ≤ s.max_name_length →
      (s.request_get name guid = .ok v ∧
        ∀ d, d.length ≤ s.max_data_length →
          (s.request_set ⟨name, guid, d, v.attr⟩).2 = .ok ())) := by
  have hne : name.isEmpty = false := by
    cases name with
    | nil => exact absurd rfl hname
    | cons a t => rfl
  constructor
  · intro hrt
    refine ⟨⟨?_, List.mem_of_find?_eq_some hget⟩, ?_⟩
    · unfold Varstore.request_get
      rw [hne, if_neg Bool.false_ne_true, hget]
      dsimp only []
      rw [if_pos (by simp [hex, hrt])]
    · intro d
      unfold Varstore.request_set
      dsimp only []
      by_cases hc1 : name.length > s.max_name_length
      · rw [if_pos hc1]
      · rw [if_neg hc1]
        by_cases hc2 : d.length > s.max_data_length
        · rw [if_pos hc2]
        · rw [if_neg hc2]
          by_cases hc3 : contains v.attr EfiAttributes.HARDWARE_ERROR_RECORD = true
          · rw [if_pos hc3]
          · rw [if_neg hc3, if_neg (by simp [hAuth]),
              if_neg (by simp [contains_lor_false_left _ _ _ hTime]),
              if_neg (by simp [hEnh]), if_neg (by simp [hTime]),
              if_neg (by simp [hrt]), hget]
            dsimp only []
            rw [if_neg (not_not_intro rfl), if_pos (by simp [hex, hrt])]
  · intro hrt hboot hlen
    constructor
    · unfold Varstore.request_get
      rw [hne, if_neg Bool.false_ne_true, hget]
      dsimp only []
      rw [if_neg (by simp [hrt])]
    · intro d hd
      unfold Varstore.request_set
      dsimp only []
      rw [if_neg (by omega), if_neg (by omega), if_neg (by simp [hHw]),
        if_neg (by simp [hAuth]),
        if_neg (by simp [contains_lor_false_left _ _ _ hTime]),
        if_neg (by simp [hEnh]), if_neg (by simp [hTime]),
        if_neg (by simp [hboot]), hget]
      dsimp only []
      rw [if_neg (not_not_intro rfl), if_neg (by simp [hrt])]
      by_cases hap : contains v.attr EfiAttributes.APPEND_WRITE = true
      · rw [if_pos hap, if_pos hap, hap, Bool.true_and]
        by_cases hemp : (v.data ++ d).isEmpty = true
        · rw [if_pos hemp]
        · rw [if_neg hemp, if_neg hemp]
      · rw [if_neg hap, if_neg hap]
        rw [Bool.not_eq_true] at hap
        rw [hap, Bool.false_and, if_neg Bool.false_ne_true]
        by_cases hemp : d.isEmpty = true
        · rw [if_pos hemp]
        · rw [if_neg hemp]

/-- Witness for `c8_runtime_gating` at a concrete store: `get` on the
boot-services-only record reports NotFound though it is stored, and the
empty-data delete attempt fails with InvalidParameter, store unchanged. -/
theorem c8_runtime_gating_witness :
    (exitedStore.request_get [65] 7 = .error .NOT_FOUND ∧
        (⟨[65], 7, [1], 2⟩ : EfiVariable) ∈ exitedStore.variables) ∧
      exitedStore.request_set ⟨[65], 7, [], 2⟩
        = (exitedStore, .error .INVALID_PARAMETER) :=
  have h := (c8_runtime_gating exitedStore [65] 7 ⟨[65], 7, [1], 2⟩ rfl rfl
    (by decide) (by decide) (by decide) (by decide) (by decide)).1 (by decide)
  ⟨h.1, h.2 []⟩

/-- `dropWhile` cannot consume the whole list when some member fails the
predicate. -/
theorem dropWhile_ne_nil_of_mem {α : Type} {l : List α} {p : α → Bool} {x : α}
    (hx : x ∈ l) (hpx : p x = false) : l.dropWhile p ≠ [] := by
  induction l with
  | nil => exact absurd hx (List.not_mem_nil x)
  | cons a t ih =>
    rw [List.dropWhile_cons]
    by_cases hpa : p a = true
    · rw [if_pos hpa]
      rcases List.mem_cons.1 hx with rfl | hx'
      · exact absurd hpa (by simp [hpx])
      · exact ih hx'
    · rw [if_neg hpa]
      simp

/-- C10: `request_get_next` is not filtered by the boot-services state — its
result never depends on `bootservices_exited`, every stored record's identity
is accepted as a cursor (never the lost-cursor Invalid answer, whatever the
record's attributes), and the first stored record is returned as Found for the
empty-name cursor — so records that `request_get` hides after boot services
exit (lacking RUNTIME_ACCESS) are still visible through enumeration. -/
theorem c10_get_next_unfiltered (s : Varstore) (b : Bool) (n : List Nat)
    (g : Nat) (v : EfiVariable) :
    ({ s with bootservices_exited := b }).request_get_next n g
        = s.request_get_next n g ∧
      (v ∈ s.variables → s.request_get_next v.name v.guid ≠ .Invalid) ∧
      (s.variables.head? = some v → s.request_get_next [] g = .Found v) := by
  refine ⟨rfl, ?_, ?_⟩
  · intro hmem
    unfold Varstore.request_get_next
    by_cases hn : v.name.isEmpty = true
    · rw [if_pos hn]
      cases hv : s.variables with
      | nil => simp
      | cons a t => simp
    · rw [if_neg hn]
      have hd := dropWhile_ne_nil_of_mem (l := s.variables)
        (p := fun k => !(k.name == v.name && k.guid == v.guid)) hmem (by simp)
      cases hdrop : s.variables.dropWhile
          (fun k => !(k.name == v.name && k.guid == v.guid)) with
      | nil => exact absurd hdrop hd
      | cons a t =>
        cases t with
        | nil => simp
        | cons c u => simp
  · intro hhead
    unfold Varstore.request_get_next
    have hemp : ([] : List Nat).isEmpty = true := rfl
    rw [if_pos hemp]
    cases hv : s.variables with
    | nil =>
      rw [hv] at hhead
      exact absurd hhead (by simp)
    | cons a t =>
      rw [hv] at hhead
      simp only [List.head?_cons, Option.some.injEq] at hhead
      rw [hhead]

/-- Witness for `c10_get_next_unfiltered` at a concrete store: after boot
services exit, the boot-services-only record is still enumerated. -/
theorem c10_get_next_unfiltered_witness :
    ({ exitedStore with bootservices_exited := true }).request_get_next [65] 7
        = exitedStore.request_get_next [65] 7 ∧
      exitedStore.request_get_next [65] 7 ≠ .Invalid ∧
      exitedStore.request_get_next [] 0 = .Found ⟨[65], 7, [1], 2⟩ :=
  have h := c10_get_next_unfiltered exitedStore true [65] 7 ⟨[65], 7, [1], 2⟩
  ⟨h.1, h.2.1 (by decide), h.2.2 rfl⟩

end UefiVarstore

